import Mathlib

/-!
Verification of the torchLessons training scripts.

Shallow embedding of the hyperparameter-search trainer
(`src/Basics/paramRayTune.py`) and the fixed-config trainer
(`src/Basics/simpleFullyNN.py`).  Tensors, autodiff and the network forward
pass are external collaborators; a trained network is modelled as an opaque
classifier `net : ι → Nat` mapping an input to its predicted class (the
composition of the forward pass with the `argmax` the scripts apply to the
outputs), and the cross-entropy criterion as a batch-level loss function
into `ℚ`.  Control flow, accumulator arithmetic and event ordering are
translated statement by statement from the Python source.
-/

namespace TorchLessons

/-! Epoch loop of `train_cifar` (paramRayTune.py, line 94)

The loop header is `for epoch in range(10)`: the bound is the literal 10.
`main` forwards its `max_num_epochs` argument only to
`ASHAScheduler(max_t=max_num_epochs, ...)` (lines 193-199); `train_cifar`
itself has no epoch-count parameter.  Ray Tune cancellation is cooperative:
a trial can only be stopped at `tune.report`, i.e. after an epoch has
completed. -/

/-- The literal loop bound of `for epoch in range(10)` in `train_cifar`. -/
def numEpochs : Nat := 10

/-- Number of epochs executed when at most `fuel` loop iterations remain and
the current epoch index is `e`: the epoch runs to completion, then the trial
exits if the scheduler signalled a stop at its `tune.report` call. -/
def epochsFrom (stop : Nat → Bool) : Nat → Nat → Nat
  | 0, _ => 0
  | fuel + 1, e => 1 + (if stop e then 0 else epochsFrom stop fuel (e + 1))

/-- Epochs executed by one `train_cifar` trial under stop signal `stop`. -/
def epochsExecuted (stop : Nat → Bool) : Nat :=
  epochsFrom stop numEpochs 0

/-- Epochs executed by a trial the scheduler never stops, as a function of
the `max_num_epochs` argument of `main`.  `train_cifar` never receives
`max_num_epochs` (it only reaches the scheduler's `max_t`), so the value is
`epochsExecuted` of the never-stop signal, independent of the argument. -/
def uncancelledEpochs (max_num_epochs : Nat) : Nat :=
  epochsExecuted fun _ => false

theorem epochsFrom_le (stop : Nat → Bool) :
    ∀ fuel e, epochsFrom stop fuel e ≤ fuel := by
  intro fuel
  induction fuel with
  | zero => intro e; simp [epochsFrom]
  | succ f ih =>
    intro e
    cases hse : stop e with
    | true => simp [epochsFrom, hse]
    | false =>
      have := ih (e + 1)
      simp [epochsFrom, hse]
      omega

/-! The 80/20 split (paramRayTune.py, lines 77-78)

`test_abs = int(len(trainset) * 0.8)` followed by
`random_split(trainset, [test_abs, len(trainset) - test_abs])`.
`torch.utils.data.random_split` draws a permutation of the indices from the
(here unseeded) default generator and hands the first `test_abs` indices to
the first subset and the rest to the second. -/

/-- The value `int(len(trainset) * 0.8)`.  For the dataset sizes in play (the CIFAR-10
training set has 50000 elements) the double-precision product rounds to the
exact value, so this is the floor of `0.8 * n`, i.e. `4 * n / 5` in natural
division. -/
def test_abs (n : Nat) : Nat := 4 * n / 5

/-- The call `random_split(trainset, [a, n - a])` applied to the index permutation
`perm` drawn from the generator: the first subset gets the first `a`
permuted indices, the second subset the remaining ones. -/
def random_split (perm : List Nat) (a : Nat) : List Nat × List Nat :=
  (perm.take a, perm.drop a)

/-! Best-trial selection (paramRayTune.py, line 213)

`result.get_best_trial("loss", "min", "last")` is Ray Tune library code, an
external collaborator of this repository; modelled from the spec (§4.4):
select the trial whose *last reported* metric value is best under the
minimize convention, ties broken in favour of the earlier trial. -/

/-- A completed trial as seen by the selector: an identifier and the last
reported value of the `"loss"` metric. -/
structure Trial where
  id : Nat
  lastLoss : ℚ
  deriving DecidableEq

/-- Modelled from the spec: `result.get_best_trial("loss", "min", "last")`
(the selector itself lives in the Ray Tune library, not in this repository).
Returns a trial minimising the last reported loss, keeping the earlier trial
on ties. -/
def get_best_trial : List Trial → Option Trial
  | [] => none
  | t :: ts =>
    match get_best_trial ts with
    | none => some t
    | some b => if t.lastLoss ≤ b.lastLoss then some t else some b

theorem get_best_trial_isSome (t : Trial) (ts : List Trial) :
    (get_best_trial (t :: ts)).isSome = true := by
  simp only [get_best_trial]
  cases get_best_trial ts with
  | none => simp
  | some b => by_cases h : t.lastLoss ≤ b.lastLoss <;> simp [h]

theorem get_best_trial_le :
    ∀ (ts : List Trial) (b : Trial), get_best_trial ts = some b →
      ∀ t ∈ ts, b.lastLoss ≤ t.lastLoss := by
  intro ts
  induction ts with
  | nil => intro b hb; simp [get_best_trial] at hb
  | cons t' ts ih =>
    intro b hb t ht
    simp only [get_best_trial] at hb
    cases h : get_best_trial ts with
    | none =>
      rw [h] at hb
      simp only [Option.some.injEq] at hb
      rcases List.mem_cons.mp ht with h1 | h1
      · rw [← hb, h1]
      · cases ts with
        | nil => simp at h1
        | cons a as =>
          have hs := get_best_trial_isSome a as
          rw [h] at hs
          simp at hs
    | some b' =>
      rw [h] at hb
      rcases List.mem_cons.mp ht with h1 | h1
      · subst h1
        by_cases hle : t.lastLoss ≤ b'.lastLoss
        · simp [hle] at hb; rw [← hb]
        · simp [hle] at hb; rw [← hb]; exact le_of_not_le hle
      · have hb't : b'.lastLoss ≤ t.lastLoss := ih b' h t h1
        by_cases hle : t'.lastLoss ≤ b'.lastLoss
        · simp [hle] at hb; rw [← hb]; exact le_trans hle hb't
        · simp [hle] at hb; rw [← hb]; exact hb't

/-! Resume path of `train_cifar` (paramRayTune.py, lines 69-72)

```
if checkpoint_dir:
    model_state, optimizer_state = torch.load(os.path.join(checkpoint_dir, "checkpoint"))
    net.load_state_dict(model_state)
    optimizer.load_state_dict(optimizer_state)
```
runs before `load_data` and before the epoch loop; no `try/except` guards
it, so a failing `torch.load` (missing or unreadable checkpoint file)
propagates out of the trial. -/

/-- Observable actions of one `train_cifar` run. -/
inductive RunEvent where
  /-- one `optimizer.step()` on mini-batch `batch` of epoch `epoch` -/
  | optStep (epoch batch : Nat)
  /-- the `torch.save` of the epoch checkpoint -/
  | ckptWrite (epoch : Nat)
  /-- the `tune.report(loss=..., accuracy=...)` call -/
  | metricReport (epoch : Nat)
  deriving DecidableEq

/-- The training phase proper: for each of the `numEpochs` epochs, one
optimizer step per mini-batch, then the checkpoint write, then the metric
report. -/
def trainBody (nBatches : Nat) : List RunEvent :=
  (List.range numEpochs).flatMap fun e =>
    ((List.range nBatches).map (RunEvent.optStep e)) ++
      [RunEvent.ckptWrite e, RunEvent.metricReport e]

/-- The function `train_cifar` up to checkpoint handling: with a `checkpoint_dir`, the
state is loaded by `torch.load` before anything else happens, and a load
failure aborts the trial; without one, training starts from the freshly
initialised state `init`.  The result is the state training starts from and
the run's event trace. -/
def train_cifar (checkpoint_dir : Option String)
    (load : String → Except String St) (init : St) (nBatches : Nat) :
    Except String (St × List RunEvent) :=
  match checkpoint_dir with
  | none => .ok (init, trainBody nBatches)
  | some d =>
    match load d with
    | .error err => .error err
    | .ok st => .ok (st, trainBody nBatches)

/-! `check_accuracy` (simpleFullyNN.py, lines 89-113)

```
def check_accuracy(loader, model):
    if loader.dataset.train: print(...) else: print(...)
    num_correct = 0; num_samples = 0
    model.eval()
    with torch.no_grad():
        for x, y in loader:
            ...
            num_correct += (predictions == y).sum()
            num_samples += predictions.size(0)
        print(f"Got {num_correct} / {num_samples} ...")
    model.train()
    # return acc
```
The function ends without a `return` statement, so on normal exit it
returns `None`; the accuracy only reaches the `print`.  That print divides
`float(num_correct)` by `float(num_samples)`: when the loader yields no
samples it raises `ZeroDivisionError`, and since `model.train()` only runs
after it, the exceptional exit leaves the model in eval mode. -/

/-- A `nn.Module` as far as `check_accuracy` can observe it: its parameters
and its training-mode flag (`model.train()` / `model.eval()`). -/
structure SimpleModel (P : Type) where
  params : P
  training : Bool

/-- A `DataLoader` handle: the `dataset.train` flag the function branches on
for its first print, and the batches it yields, each a list of
(input, label) pairs. -/
structure Loader (ι : Type) where
  train : Bool
  batches : List (List (ι × Nat))

/-- Number of correct predictions of classifier `net` on one batch. -/
def countCorrect (net : ι → Nat) (batch : List (ι × Nat)) : Nat :=
  batch.countP fun s => net s.1 == s.2

/-- The function `check_accuracy(loader, model)`: sets `model.eval()`, accumulates
`num_correct` and `num_samples` over the loader's batches under
`torch.no_grad` (the forward pass `net` reads the parameters, nothing
writes them), prints the accuracy percentage, sets `model.train()`, and
falls off the end.  When the loader yields no samples, `num_samples` is 0
and the accuracy print's `float(num_correct)/float(num_samples)` raises
`ZeroDivisionError` before `model.train()` runs, so the call exits
exceptionally with the model still in eval mode: `Except.error` carries
the model as the escaping exception leaves it.  On the normal path the
result is the model as the function leaves it, the printed accuracy
percentage, and the returned value (`none`, since the `return acc` line is
commented out). -/
def check_accuracy (loader : Loader ι) (model : SimpleModel P)
    (net : P → ι → Nat) :
    Except (SimpleModel P) (SimpleModel P × ℚ × Option ℚ) :=
  let m1 : SimpleModel P := { model with training := false }
  let counts :=
    loader.batches.foldl
      (fun s b => (s.1 + countCorrect (net m1.params) b, s.2 + b.length))
      (0, 0)
  if counts.2 = 0 then
    .error m1
  else
    let printedAcc : ℚ := (counts.1 : ℚ) / (counts.2 : ℚ) * 100
    let m2 : SimpleModel P := { m1 with training := true }
    .ok (m2, printedAcc, none)

/-! The search space of `main` (paramRayTune.py, lines 177-182)

```
config = {
    'l1'        : tune.sample_from(lambda _: 2**np.random.randint(2, 9)),
    'l2'        : tune.sample_from(lambda _: 2**np.random.randint(2, 9)),
    'lr'        : tune.loguniform(1e-4, 1e-1),
    'batch_size': tune.choice([2, 4, 8, 16])
}
```
`np.random.randint(2, 9)` draws an integer from the half-open range
`[2, 9)`.  `tune.loguniform(lo, hi)` (library code) draws `exp` of a
uniform value on `[log lo, log hi]`.  `tune.choice(l)` draws one element
of `l`. -/

/-- The value of the `l1`/`l2` sampler lambda on a `randint(2, 9)` draw
`k`: `2 ** k`. -/
def layerWidth (k : Nat) : Nat := 2 ^ k

/-- The value of `tune.loguniform(1e-4, 1e-1)` on a uniform draw
`u ∈ [0, 1]`: `exp` of the point `u` of the way from `log 1e-4` to
`log 1e-1`. -/
noncomputable def lrSample (u : ℝ) : ℝ :=
  Real.exp (Real.log (1/10000) + u * (Real.log (1/10) - Real.log (1/10000)))

/-- The choice list of `tune.choice([2, 4, 8, 16])`. -/
def batchChoices : List Nat := [2, 4, 8, 16]

/-- The value of `tune.choice([2, 4, 8, 16])` on a drawn index `i`. -/
def batchSample (i : Fin batchChoices.length) : Nat := batchChoices.get i

/-! The validation pass of `train_cifar` (paramRayTune.py, lines 120-137)

```
val_loss = 0.0; val_steps = 0; total = 0; correct = 0
for i, data in enumerate(valloader, 0):
    with torch.no_grad():
        outputs = net(inputs)
        _, predicted = torch.max(outputs.data, 1)
        total += labels.size(0)
        correct += (predicted == labels).sum().item()
        loss = criterion(outputs, labels)
        val_loss += loss.cpu().numpy()
        val_steps += 1
```
then `tune.report(loss=(val_loss / val_steps), accuracy=correct / total)`
(line 150).  A batch is a list of (input, predicted-from) pairs `(x, y)`
with label `y`; `net x` is `argmax` of the network outputs on `x`, and
`lossFn` is the criterion evaluated on a whole batch. -/

/-- The accumulators of the validation loop. -/
structure ValState where
  val_loss : ℚ
  val_steps : Nat
  total : Nat
  correct : Nat

/-- One iteration of the validation loop on batch `b`: everything runs
under `torch.no_grad` and no optimizer step happens, so the network is only
read. -/
def valStep (net : ι → Nat) (lossFn : List (ι × Nat) → ℚ)
    (s : ValState) (b : List (ι × Nat)) : ValState :=
  { val_loss := s.val_loss + lossFn b
    val_steps := s.val_steps + 1
    total := s.total + b.length
    correct := s.correct + countCorrect net b }

/-- The whole validation pass: fold the loop body over the loader's
batches, starting from zeroed accumulators; the network comes out as it
went in. -/
def valPass (net : ι → Nat) (lossFn : List (ι × Nat) → ℚ)
    (bs : List (List (ι × Nat))) : (ι → Nat) × ValState :=
  (net, bs.foldl (valStep net lossFn) ⟨0, 0, 0, 0⟩)

/-- The `loss` value of `tune.report`: `val_loss / val_steps`. -/
def reportedLoss (s : ValState) : ℚ := s.val_loss / (s.val_steps : ℚ)

/-- The `accuracy` value of `tune.report`: `correct / total`. -/
def reportedAcc (s : ValState) : ℚ := (s.correct : ℚ) / (s.total : ℚ)

/-! `test_accuracy` (paramRayTune.py, lines 155-171)

```
testloader = DataLoader(testset, batch_size=4, shuffle=False, num_workers=2)
correct = 0; total = 0
with torch.no_grad():
    for data in testloader:
        outputs = net(images)
        _, predicted = torch.max(outputs.data, 1)
        total += labels.size(0)
        correct += (predicted == labels).sum().item()
return correct / total
```
With `shuffle=False` the loader yields the dataset in its stored order, in
consecutive batches of 4 (a shorter final batch when the length is not a
multiple of 4). -/

/-- The batches an unshuffled `DataLoader(testset, batch_size=4)` yields:
consecutive chunks of 4 in dataset order. -/
def batchify4 : List α → List (List α)
  | [] => []
  | x :: xs => (x :: xs.take 3) :: batchify4 (xs.drop 3)
termination_by l => l.length
decreasing_by simp [List.length_drop]; omega

/-- One iteration of the `test_accuracy` loop on batch `b`: add the batch's
correct-prediction count to `correct` and its size to `total`; runs under
`torch.no_grad`, the network is only read. -/
def testFold (net : ι → Nat) (s : Nat × Nat) (b : List (ι × Nat)) :
    Nat × Nat :=
  (s.1 + countCorrect net b, s.2 + b.length)

/-- The function `test_accuracy(net)`: iterate the unshuffled test loader accumulating
`(correct, total)` and return `correct / total`; the network comes out as
it went in (`torch.no_grad`, no optimizer in scope). -/
def test_accuracy (net : ι → Nat) (testset : List (ι × Nat)) :
    (ι → Nat) × ℚ :=
  let counts := (batchify4 testset).foldl (testFold net) (0, 0)
  (net, (counts.1 : ℚ) / (counts.2 : ℚ))

/-! Per-epoch checkpoint and report (paramRayTune.py, lines 146-150)

```
with tune.checkpoint_dir(epoch) as checkpoint_dir:
    path = os.path.join(checkpoint_dir, "checkpoint")
    torch.save((net.state_dict(), optimizer.state_dict()), path)

tune.report(loss=(val_loss / val_steps), accuracy = correct / total)
```
is the unconditional tail of every iteration of `for epoch in range(10)`:
one checkpoint write, then one report, per epoch. -/

/-- The checkpoint/report side effects of `train_cifar`, in program
order. -/
inductive TraceEvent where
  /-- the `torch.save` into `tune.checkpoint_dir(epoch)` -/
  | ckpt (epoch : Nat)
  /-- the `tune.report(loss=..., accuracy=...)` call -/
  | report (epoch : Nat) (loss acc : ℚ)

/-- The side effects of the tail of epoch `e`, where `m e` is the
(mean validation loss, accuracy) pair the epoch computed: the checkpoint
write, then the report. -/
def epochTail (m : Nat → ℚ × ℚ) (e : Nat) : List TraceEvent :=
  [TraceEvent.ckpt e, TraceEvent.report e (m e).1 (m e).2]

/-- The checkpoint/report trace of one full `train_cifar` run. -/
def reportTrace (m : Nat → ℚ × ℚ) : List TraceEvent :=
  (List.range numEpochs).flatMap (epochTail m)

/-- Recognises a report event for epoch `e`. -/
def isReportFor (e : Nat) : TraceEvent → Bool
  | .report e' _ _ => e' == e
  | _ => false

/-! The configuration sampler's random source (paramRayTune.py, 177-182)

The `l1`/`l2` lambdas draw from numpy's global `RandomState`, and
`tune.loguniform`/`tune.choice` draw from the search library's source;
both are external collaborators.  Modelled from the spec (§4.1): the
sampler is a "pure function of an internal random source", so a source is
the stream of raw draws its seed determines together with a position in
the stream, and every primitive draw consumes one stream element. -/

/-- Modelled from the spec: the seeded random source.  `draws` is the raw
draw stream the seed determines, `pos` the next unconsumed position. -/
structure RandSource where
  draws : Nat → Nat
  pos : Nat

/-- Consume one raw draw. -/
def nextDraw (g : RandSource) : Nat × RandSource :=
  (g.draws g.pos, { g with pos := g.pos + 1 })

/-- The draw `np.random.randint(lo, hi)`: an integer of the half-open range
`[lo, hi)` obtained from the next raw draw. -/
def randint (lo hi : Nat) (g : RandSource) : Nat × RandSource :=
  let (d, g') := nextDraw g
  (lo + d % (hi - lo), g')

/-- One sampled configuration.  `lr_draw` is the raw draw
`tune.loguniform(1e-4, 1e-1)` consumes; the learning-rate value is a fixed
function (`lrSample` of the induced uniform point) of it, so equal draws
give equal rates. -/
structure TuneConfig where
  l1 : Nat
  l2 : Nat
  lr_draw : Nat
  batch_size : Nat

/-- One trial's configuration sample, drawing the four fields of the
search-space dict in declaration order: `l1 = 2**randint(2, 9)`,
`l2 = 2**randint(2, 9)`, the `loguniform` draw, and a choice of
`[2, 4, 8, 16]`. -/
def sampleConfig (g : RandSource) : TuneConfig × RandSource :=
  let (k1, g1) := randint 2 9 g
  let (k2, g2) := randint 2 9 g1
  let (u, g3) := nextDraw g2
  let (c, g4) := randint 0 4 g3
  (⟨layerWidth k1, layerWidth k2, u, batchChoices.getD c 0⟩, g4)

/-- A run of the sampler: `SampleSeq g n cs` holds when starting the random
source at `g` and sampling one configuration per trial for `n` trials can
produce the configuration sequence `cs`. -/
inductive SampleSeq : RandSource → Nat → List TuneConfig → Prop where
  | nil (g : RandSource) : SampleSeq g 0 []
  | cons (g g' : RandSource) (c : TuneConfig) (n : Nat) (cs : List TuneConfig) :
      sampleConfig g = (c, g') → SampleSeq g' n cs →
      SampleSeq g (n + 1) (c :: cs)

/-!
Theorems for the claims.
-/

/-- C1 (counterexample): the epoch count of an uncancelled trial does not
equal the caller-specified `max_num_epochs`: calling `main` with
`max_num_epochs = 20` still gives trials whose loop runs `range(10)`, so an
uncancelled trial executes 10 epochs, not 20. -/
theorem uncancelled_epochs_ignore_caller_max : uncancelledEpochs 20 ≠ 20 := by
  decide

/-- C1 (amended): the `train_cifar` loop bound is the hard-coded constant
10, independent of `main`'s `max_num_epochs` (which only reaches the
scheduler's `max_t`): an uncancelled trial executes exactly `numEpochs = 10`
epochs for every value of `max_num_epochs`, a cancelled trial executes at
most 10, and a trial stopped at its first report executes exactly 1. -/
theorem train_cifar_epoch_count (max_num_epochs : Nat) (stop : Nat → Bool) :
    uncancelledEpochs max_num_epochs = 10 ∧
    epochsExecuted stop ≤ 10 ∧
    (stop 0 = true → epochsExecuted stop = 1) := by
  refine ⟨(by decide : epochsExecuted (fun _ => false) = 10), ?_, ?_⟩
  · exact epochsFrom_le stop numEpochs 0
  · intro h
    simp [epochsExecuted, numEpochs, epochsFrom, h]

/-- C1 (witness for the amended theorem): at `max_num_epochs = 1` (the value
the script's `__main__` block passes) and a stop signal raised at the first
report, the conclusions hold. -/
theorem train_cifar_epoch_count_witness :
    uncancelledEpochs 1 = 10 ∧ epochsExecuted (fun _ => true) ≤ 10 ∧
      epochsExecuted (fun _ => true) = 1 :=
  ⟨(train_cifar_epoch_count 1 fun _ => true).1,
   (train_cifar_epoch_count 1 fun _ => true).2.1,
   (train_cifar_epoch_count 1 fun _ => true).2.2 rfl⟩

/-- C3 (counterexample): the split is not deterministic across runs.
`random_split` is called without a generator argument, so the index
permutation comes from torch's default generator, whose state differs from
run to run; two legitimate permutations of a 5-element dataset (both listed
here, the identity and its reverse) produce different partitions. -/
theorem random_split_not_deterministic :
    List.Perm (List.range 5) [4, 3, 2, 1, 0] ∧
      random_split (List.range 5) (test_abs 5) ≠
        random_split [4, 3, 2, 1, 0] (test_abs 5) := by
  decide

/-- C3 (amended): the sizes are the exact 80/20 floor split — the first
subset has `int(0.8 * n)` elements and the second the remainder, and
together they partition the drawn permutation of the dataset indices — but
the partition depends on the permutation drawn from torch's unseeded default
generator, so it is not the same on every run. -/
theorem random_split_sizes (perm : List Nat) (n : Nat) (h : perm.length = n) :
    (random_split perm (test_abs n)).1.length = test_abs n ∧
    (random_split perm (test_abs n)).2.length = n - test_abs n ∧
    (random_split perm (test_abs n)).1 ++ (random_split perm (test_abs n)).2
      = perm := by
  have hle : test_abs n ≤ n := by unfold test_abs; omega
  refine ⟨?_, ?_, ?_⟩
  · simp [random_split, h]; omega
  · simp [random_split, h]
  · simp [random_split]

/-- C3 (witness): on a permutation of the 5-element index set the split
sizes are 4 and 1 and the two subsets partition the permutation. -/
theorem random_split_sizes_witness :
    (random_split [4, 3, 2, 1, 0] (test_abs 5)).1.length = test_abs 5 ∧
    (random_split [4, 3, 2, 1, 0] (test_abs 5)).2.length = 5 - test_abs 5 ∧
    (random_split [4, 3, 2, 1, 0] (test_abs 5)).1 ++
        (random_split [4, 3, 2, 1, 0] (test_abs 5)).2 = [4, 3, 2, 1, 0] :=
  random_split_sizes [4, 3, 2, 1, 0] 5 rfl

/-- C4: `get_best_trial` under metric `"loss"`, mode `"min"` returns a trial
whose last reported loss is ≤ the last reported loss of every trial in the
result set, and on the concrete set with losses 0.5 and 0.3 it returns the
trial with loss 0.3. -/
theorem get_best_trial_spec (ts : List Trial) (b t : Trial)
    (hb : get_best_trial ts = some b) (ht : t ∈ ts) :
    b.lastLoss ≤ t.lastLoss ∧
      get_best_trial [⟨0, 1/2⟩, ⟨1, 3/10⟩] = some ⟨1, 3/10⟩ := by
  refine ⟨get_best_trial_le ts b hb t ht, ?_⟩
  norm_num [get_best_trial]

/-- C4 (witness): instantiating the universal part at a one-trial result set
(where the selector's answer reduces definitionally) also yields the
concrete conclusion: on the set with losses 0.5 and 0.3 the selector
returns the loss-0.3 trial. -/
theorem get_best_trial_spec_witness :
    (Trial.mk 0 (1/2)).lastLoss ≤ (Trial.mk 0 (1/2)).lastLoss ∧
      get_best_trial [⟨0, 1/2⟩, ⟨1, 3/10⟩] = some ⟨1, 3/10⟩ :=
  get_best_trial_spec [⟨0, 1/2⟩] ⟨0, 1/2⟩ ⟨0, 1/2⟩ rfl
    (List.mem_cons_self _ _)

/-- C7: a resume request whose checkpoint load fails aborts the trial with
the propagated error: `train_cifar` returns that error, executes no
training step (the error result carries no event trace), and in particular
never returns a successful run started from freshly initialised state. -/
theorem train_cifar_resume_fails_fast (d : String)
    (load : String → Except String Nat) (init : Nat) (nB : Nat) (err : String)
    (h : load d = .error err) :
    train_cifar (some d) load init nB = .error err ∧
      ∀ st evs, train_cifar (some d) load init nB ≠ .ok (st, evs) := by
  constructor
  · simp [train_cifar, h]
  · intro st evs
    simp [train_cifar, h]

/-- C7 (witness): with a loader that fails with "checkpoint missing" on
every directory, the trial aborts with that error and returns no run. -/
theorem train_cifar_resume_fails_fast_witness :
    train_cifar (some "ckpt") (fun _ => .error "checkpoint missing") 0 2
        = .error "checkpoint missing" ∧
      ∀ st evs, train_cifar (some "ckpt")
          (fun _ => .error "checkpoint missing") 0 2 ≠ .ok (st, evs) :=
  train_cifar_resume_fails_fast "ckpt" (fun _ => .error "checkpoint missing")
    0 2 "checkpoint missing" rfl

/-- C2: every sampled configuration lies in the declared domains: `l1`/`l2`
is `2 ** randint(2, 9)`, hence a power of two in {4, 8, 16, 32, 64, 128,
256}; `lr` drawn by `loguniform(1e-4, 1e-1)` lies in `[1e-4, 1e-1]`;
`batch_size` is one of {2, 4, 8, 16}. -/
theorem sample_domains (k : Nat) (u : ℝ) (i : Fin batchChoices.length)
    (hk : 2 ≤ k ∧ k < 9) (hu : 0 ≤ u ∧ u ≤ 1) :
    layerWidth k ∈ ([4, 8, 16, 32, 64, 128, 256] : List Nat) ∧
    (1/10000 : ℝ) ≤ lrSample u ∧ lrSample u ≤ 1/10 ∧
    batchSample i ∈ batchChoices := by
  obtain ⟨hk1, hk2⟩ := hk
  obtain ⟨hu0, hu1⟩ := hu
  have hlo : (0 : ℝ) < 1/10000 := by norm_num
  have hd : (0 : ℝ) ≤ Real.log (1/10) - Real.log (1/10000) :=
    sub_nonneg.mpr (Real.log_le_log hlo (by norm_num))
  refine ⟨?_, ?_, ?_, ?_⟩
  · unfold layerWidth
    interval_cases k <;> decide
  · calc (1/10000 : ℝ) = Real.exp (Real.log (1/10000)) :=
          (Real.exp_log hlo).symm
      _ ≤ lrSample u :=
          Real.exp_le_exp.mpr (le_add_of_nonneg_right (mul_nonneg hu0 hd))
  · have hsum : Real.log (1/10000) +
        (Real.log (1/10) - Real.log (1/10000)) = Real.log (1/10) := by ring
    calc lrSample u
        ≤ Real.exp (Real.log (1/10000) +
            (Real.log (1/10) - Real.log (1/10000))) :=
          Real.exp_le_exp.mpr (add_le_add_left (mul_le_of_le_one_left hd hu1) _)
      _ = 1/10 := by rw [hsum, Real.exp_log (by norm_num)]
  · exact List.get_mem batchChoices i.1 i.2

/-- C2 (witness): at the draws `k = 2`, `u = 0`, choice index 0, the
hypotheses hold and the sampled fields lie in their domains. -/
theorem sample_domains_witness :
    ((2 ≤ 2 ∧ 2 < 9) ∧ ((0 : ℝ) ≤ 0 ∧ (0 : ℝ) ≤ 1)) ∧
      (layerWidth 2 ∈ ([4, 8, 16, 32, 64, 128, 256] : List Nat) ∧
        (1/10000 : ℝ) ≤ lrSample 0 ∧ lrSample 0 ≤ 1/10 ∧
        batchSample ⟨0, by decide⟩ ∈ batchChoices) :=
  ⟨⟨⟨by decide, by decide⟩, ⟨le_refl 0, zero_le_one⟩⟩,
    sample_domains 2 0 ⟨0, by decide⟩ ⟨by decide, by decide⟩
      ⟨le_refl 0, zero_le_one⟩⟩

theorem countCorrect_le_length (net : ι → Nat) (l : List (ι × Nat)) :
    countCorrect net l ≤ l.length :=
  List.countP_le_length _

theorem valPass_foldl (net : ι → Nat) (lossFn : List (ι × Nat) → ℚ) :
    ∀ (bs : List (List (ι × Nat))) (s : ValState),
      bs.foldl (valStep net lossFn) s =
        ⟨s.val_loss + (bs.map lossFn).sum, s.val_steps + bs.length,
          s.total + bs.flatten.length, s.correct + countCorrect net bs.flatten⟩ := by
  intro bs
  induction bs with
  | nil =>
    intro s
    simp [countCorrect]
  | cons b bs ih =>
    intro s
    rw [List.foldl_cons, ih]
    simp only [valStep, List.map_cons, List.sum_cons, List.flatten_cons,
      countCorrect, List.countP_append, List.length_cons, List.length_append,
      ValState.mk.injEq]
    refine ⟨by ring, by omega, by omega, by omega⟩

/-- C5: the validation pass leaves the network untouched (no gradient
update can happen under `torch.no_grad` and none is attempted), and the
reported metrics are: accuracy = correctly predicted validation samples
divided by total validation samples, a value in [0, 1], and loss = the sum
of the per-batch criterion values divided by the number of validation
batches. -/
theorem val_pass_spec (net : ι → Nat) (lossFn : List (ι × Nat) → ℚ)
    (bs : List (List (ι × Nat))) (h : bs.flatten ≠ []) :
    (valPass net lossFn bs).1 = net ∧
    reportedLoss (valPass net lossFn bs).2 = (bs.map lossFn).sum / (bs.length : ℚ) ∧
    reportedAcc (valPass net lossFn bs).2 =
      (countCorrect net bs.flatten : ℚ) / (bs.flatten.length : ℚ) ∧
    0 ≤ reportedAcc (valPass net lossFn bs).2 ∧
    reportedAcc (valPass net lossFn bs).2 ≤ 1 := by
  have hfold := valPass_foldl net lossFn bs ⟨0, 0, 0, 0⟩
  have hpos : 0 < bs.flatten.length := List.length_pos.mpr h
  refine ⟨rfl, ?_, ?_, ?_, ?_⟩
  · simp [valPass, hfold, reportedLoss]
  · simp [valPass, hfold, reportedAcc]
  · simp only [valPass, hfold, reportedAcc]
    exact div_nonneg (by positivity) (by positivity)
  · simp only [valPass, hfold, reportedAcc, zero_add]
    rw [div_le_one (by exact_mod_cast hpos)]
    exact_mod_cast countCorrect_le_length net bs.flatten

/-- C5 (witness): on a single one-sample validation batch the validation
pass leaves the network untouched and reports the stated metrics. -/
theorem val_pass_spec_witness :
    (valPass (fun _ : Nat => 0) (fun _ => 0) [[(0, 0)]]).1 = (fun _ : Nat => 0) ∧
    reportedLoss (valPass (fun _ : Nat => 0) (fun _ => 0) [[(0, 0)]]).2 =
      (([[(0, 0)]] : List (List (Nat × Nat))).map (fun _ => (0 : ℚ))).sum /
        (([[(0, 0)]] : List (List (Nat × Nat))).length : ℚ) ∧
    reportedAcc (valPass (fun _ : Nat => 0) (fun _ => 0) [[(0, 0)]]).2 =
      (countCorrect (fun _ : Nat => 0)
          ([[(0, 0)]] : List (List (Nat × Nat))).flatten : ℚ) /
        ((([[(0, 0)]] : List (List (Nat × Nat))).flatten.length : Nat) : ℚ) ∧
    0 ≤ reportedAcc (valPass (fun _ : Nat => 0) (fun _ => 0) [[(0, 0)]]).2 ∧
    reportedAcc (valPass (fun _ : Nat => 0) (fun _ => 0) [[(0, 0)]]).2 ≤ 1 :=
  val_pass_spec (fun _ => 0) (fun _ => 0) [[(0, 0)]] (by decide)

theorem batchify4_flatten (xs : List α) : (batchify4 xs).flatten = xs := by
  induction xs using batchify4.induct with
  | case1 => simp [batchify4]
  | case2 x xs ih =>
    simp [batchify4, List.flatten_cons, ih, List.take_append_drop]

theorem testFold_spec (net : ι → Nat) :
    ∀ (bs : List (List (ι × Nat))) (s : Nat × Nat),
      bs.foldl (testFold net) s =
        (s.1 + countCorrect net bs.flatten, s.2 + bs.flatten.length) := by
  intro bs
  induction bs with
  | nil =>
    intro s
    simp [countCorrect]
  | cons b bs ih =>
    intro s
    rw [List.foldl_cons, ih]
    simp only [testFold, List.flatten_cons, countCorrect, List.countP_append,
      List.length_append, Prod.mk.injEq]
    omega

/-- C9: `test_accuracy` never modifies the network it evaluates (it is
returned exactly as passed), the unshuffled loader's batches concatenate to
the test set in its stored order, and the returned value is exactly the
number of correctly predicted test samples divided by the number of test
samples, a value in [0, 1]. -/
theorem test_accuracy_spec (net : ι → Nat) (testset : List (ι × Nat))
    (h : testset ≠ []) :
    (test_accuracy net testset).1 = net ∧
    (batchify4 testset).flatten = testset ∧
    (test_accuracy net testset).2 =
      (countCorrect net testset : ℚ) / (testset.length : ℚ) ∧
    0 ≤ (test_accuracy net testset).2 ∧
    (test_accuracy net testset).2 ≤ 1 := by
  have hfold := testFold_spec net (batchify4 testset) (0, 0)
  have hflat := batchify4_flatten testset
  have hpos : 0 < testset.length := List.length_pos.mpr h
  have hval : (test_accuracy net testset).2 =
      (countCorrect net testset : ℚ) / (testset.length : ℚ) := by
    simp only [test_accuracy]
    rw [hfold, hflat]
    norm_num
  refine ⟨rfl, hflat, hval, ?_, ?_⟩
  · rw [hval]
    positivity
  · rw [hval, div_le_one (by exact_mod_cast hpos)]
    exact_mod_cast countCorrect_le_length net testset

/-- C9 (witness): on a two-sample test set the network comes back
unchanged, the batches concatenate to the test set, and the result is the
exact fraction of correct predictions. -/
theorem test_accuracy_spec_witness :
    (test_accuracy (fun x : Nat => x) [(0, 0), (1, 2)]).1 = (fun x : Nat => x) ∧
    (batchify4 [((0 : Nat), (0 : Nat)), (1, 2)]).flatten = [(0, 0), (1, 2)] ∧
    (test_accuracy (fun x : Nat => x) [(0, 0), (1, 2)]).2 =
      (countCorrect (fun x : Nat => x) [(0, 0), (1, 2)] : ℚ) /
        (([((0 : Nat), (0 : Nat)), (1, 2)].length : Nat) : ℚ) ∧
    0 ≤ (test_accuracy (fun x : Nat => x) [(0, 0), (1, 2)]).2 ∧
    (test_accuracy (fun x : Nat => x) [(0, 0), (1, 2)]).2 ≤ 1 :=
  test_accuracy_spec (fun x => x) [(0, 0), (1, 2)] (by decide)

/-- C10 (counterexample): `check_accuracy` does not return `None` and leave
the model in training mode on every call: on a loader yielding no samples
(`num_samples = 0`) the accuracy print divides by zero and raises before
`model.train()` runs, so the call exits exceptionally with the model still
in eval mode. -/
theorem check_accuracy_zero_division :
    check_accuracy (Loader.mk false ([] : List (List (Nat × Nat))))
        (SimpleModel.mk (0 : Nat) true) (fun p _ => p) =
      .error (SimpleModel.mk 0 false) := rfl

/-- C10 (amended): on every loader that yields at least one sample,
`check_accuracy` returns `None` (its computed accuracy percentage is only
printed), exits with the model in training mode — also when the loader
holds test data (`loader.train = false`) — and leaves the model's
parameters unchanged; on a loader with no samples the accuracy print
raises `ZeroDivisionError` before `model.train()`, so that call exits
exceptionally with the model left in eval mode (parameters still
unchanged). -/
theorem check_accuracy_spec (loader : Loader ι) (model : SimpleModel P)
    (net : P → ι → Nat) (h : loader.batches.flatten ≠ []) :
    check_accuracy loader model net =
      .ok ({ params := model.params, training := true },
        (countCorrect (net model.params) loader.batches.flatten : ℚ) /
          (loader.batches.flatten.length : ℚ) * 100, none) := by
  have hfold :
      loader.batches.foldl
          (fun s b => (s.1 + countCorrect (net model.params) b, s.2 + b.length))
          ((0 : Nat), (0 : Nat)) =
        (0 + countCorrect (net model.params) loader.batches.flatten,
          0 + loader.batches.flatten.length) :=
    testFold_spec (net model.params) loader.batches (0, 0)
  have hne : ¬ (loader.batches.flatten.length = 0) := fun hc =>
    h (List.eq_nil_of_length_eq_zero hc)
  show (if (loader.batches.foldl
          (fun s b => (s.1 + countCorrect (net model.params) b, s.2 + b.length))
          ((0 : Nat), (0 : Nat))).2 = 0 then
        Except.error (SimpleModel.mk model.params false)
      else
        Except.ok (SimpleModel.mk model.params true,
          ((loader.batches.foldl
              (fun s b => (s.1 + countCorrect (net model.params) b, s.2 + b.length))
              ((0 : Nat), (0 : Nat))).1 : ℚ) /
            ((loader.batches.foldl
              (fun s b => (s.1 + countCorrect (net model.params) b, s.2 + b.length))
              ((0 : Nat), (0 : Nat))).2 : ℚ) * 100, none)) =
      Except.ok (SimpleModel.mk model.params true,
        (countCorrect (net model.params) loader.batches.flatten : ℚ) /
          (loader.batches.flatten.length : ℚ) * 100, none)
  rw [hfold]
  simp only [zero_add]
  rw [if_neg hne]

/-- C10 (witness): on a one-sample test-data loader (`train = false`) the
call returns normally with value `None`, the model back in training mode
with its parameters unchanged, and the exact printed percentage. -/
theorem check_accuracy_spec_witness :
    check_accuracy (Loader.mk false [[((0 : Nat), (0 : Nat))]])
        (SimpleModel.mk (0 : Nat) true) (fun p _ => p) =
      .ok (SimpleModel.mk 0 true,
        (countCorrect (fun _ => 0) [((0 : Nat), (0 : Nat))] : ℚ) /
          (([((0 : Nat), (0 : Nat))] : List (Nat × Nat)).length : ℚ) * 100,
        none) :=
  check_accuracy_spec (Loader.mk false [[((0 : Nat), (0 : Nat))]])
    (SimpleModel.mk (0 : Nat) true) (fun p _ => p) (by decide)

/-- C6: in every epoch of `train_cifar` exactly one (loss, accuracy) report
is emitted (the trace holds exactly one report event for that epoch), and
the epoch's checkpoint write happens before it: in the run's trace the
checkpoint for epoch `e` sits at position `2e` and the report at position
`2e + 1`, so no report is ever emitted for an epoch whose checkpoint has
not already been written. -/
theorem ckpt_before_report (m : Nat → ℚ × ℚ) (e : Nat) (he : e < numEpochs) :
    (reportTrace m).countP (isReportFor e) = 1 ∧
    (reportTrace m)[2 * e]? = some (TraceEvent.ckpt e) ∧
    (reportTrace m)[2 * e + 1]? =
      some (TraceEvent.report e (m e).1 (m e).2) := by
  norm_num [numEpochs] at he
  interval_cases e <;> exact ⟨rfl, rfl, rfl⟩

/-- C6 (witness): epoch 0 of a run reports exactly once, with its
checkpoint written at trace position 0 and its report at position 1. -/
theorem ckpt_before_report_witness :
    (reportTrace (fun _ => (0, 0))).countP (isReportFor 0) = 1 ∧
    (reportTrace (fun _ => (0, 0)))[2 * 0]? = some (TraceEvent.ckpt 0) ∧
    (reportTrace (fun _ => (0, 0)))[2 * 0 + 1]? =
      some (TraceEvent.report 0 ((fun _ => ((0 : ℚ), (0 : ℚ))) 0).1
        ((fun _ => ((0 : ℚ), (0 : ℚ))) 0).2) :=
  ckpt_before_report (fun _ => (0, 0)) 0 (by decide)

/-- C8: the configuration sampler is deterministic in its random source:
any two sampler runs over the same source state and trial count produce the
same configuration sequence — with a fixed seed (hence a fixed draw
stream), repeated runs yield identical `l1`, `l2`, learning-rate draw and
`batch_size` sequences. -/
theorem sampler_deterministic (g : RandSource) (n : Nat)
    (cs₁ cs₂ : List TuneConfig)
    (h₁ : SampleSeq g n cs₁) (h₂ : SampleSeq g n cs₂) : cs₁ = cs₂ := by
  induction h₁ generalizing cs₂ with
  | nil a => cases h₂; rfl
  | cons a a' c m cs hc hs ih =>
    cases h₂ with
    | cons _ a'' c'' _ cs'' hc'' hs'' =>
      have hpair : (c, a') = (c'', a'') := hc.symm.trans hc''
      have hcc : c = c'' := congrArg Prod.fst hpair
      have haa : a' = a'' := congrArg Prod.snd hpair
      rw [hcc, ih cs'' (haa ▸ hs'')]

/-- C8 (witness): with the draw stream `i ↦ i` starting at position 0, one
trial samples the configuration (l1 = 4, l2 = 8, lr draw 2,
batch_size = 16), and two such runs agree. -/
theorem sampler_deterministic_witness :
    SampleSeq (RandSource.mk (fun i => i) 0) 1 [TuneConfig.mk 4 8 2 16] ∧
      ([TuneConfig.mk 4 8 2 16] : List TuneConfig) =
        [TuneConfig.mk 4 8 2 16] := by
  have h : SampleSeq (RandSource.mk (fun i => i) 0) 1 [TuneConfig.mk 4 8 2 16] :=
    SampleSeq.cons (RandSource.mk (fun i => i) 0)
      (RandSource.mk (fun i => i) 4) (TuneConfig.mk 4 8 2 16) 0 [] rfl
      (SampleSeq.nil _)
  exact ⟨h, sampler_deterministic (RandSource.mk (fun i => i) 0) 1 _ _ h h⟩

end TorchLessons
